import Mathlib

/-!
NSU Advising Assistant: monitoring engine and extraction heuristic.

A shallow embedding of `src/background.js` (persisted state, activity log,
item registry, check coordinator) and `src/content.js` (the extraction
heuristic), followed by theorems about the embedded functions.

Asynchronous functions are embedded as state-passing functions on `World`;
everything the host decides (clock values, tab creation, the reply of the
content script, tab removal) is read from a `Host` record.
-/

namespace NSUAdvising

/-! ## JavaScript string primitives -/

/-- ECMAScript `WhiteSpace` and `LineTerminator` code points: the set shared by
`String.prototype.trim` and the regular expression class `\s`. -/
def isWhiteSpace (c : Char) : Bool :=
  let n := c.toNat
  n == 0x9 || n == 0xA || n == 0xB || n == 0xC || n == 0xD || n == 0x20 ||
  n == 0xA0 || n == 0x1680 || (0x2000 ≤ n && n ≤ 0x200A) || n == 0x2028 ||
  n == 0x2029 || n == 0x202F || n == 0x205F || n == 0x3000 || n == 0xFEFF

/-- `String.prototype.trim`. -/
def trim (s : String) : String :=
  ⟨((s.data.dropWhile isWhiteSpace).reverse.dropWhile isWhiteSpace).reverse⟩

/-- Upper-case one character (the ASCII letters; other characters are kept). -/
def upperChar (c : Char) : Char :=
  if 97 ≤ c.toNat ∧ c.toNat ≤ 122 then Char.ofNat (c.toNat - 32) else c

/-- Lower-case one character (the ASCII letters; other characters are kept). -/
def lowerChar (c : Char) : Char :=
  if 65 ≤ c.toNat ∧ c.toNat ≤ 90 then Char.ofNat (c.toNat + 32) else c

/-- `String.prototype.toUpperCase`, on the ASCII case mapping. -/
def toUpperCase (s : String) : String := ⟨s.data.map upperChar⟩

/-- `String.prototype.toLowerCase`, on the ASCII case mapping. -/
def toLowerCase (s : String) : String := ⟨s.data.map lowerChar⟩

/-- `needle` occurs at the start of `hay`. -/
def startsWithChars : List Char → List Char → Bool
  | [], _ => true
  | _ :: _, [] => false
  | a :: as, b :: bs => a == b && startsWithChars as bs

/-- `needle` occurs somewhere in `hay`. -/
def includesChars (needle : List Char) : List Char → Bool
  | [] => needle.isEmpty
  | b :: bs => startsWithChars needle (b :: bs) || includesChars needle bs

/-- `String.prototype.includes`. -/
def includes (hay needle : String) : Bool := includesChars needle.data hay.data

/-! ## Persisted state (`background.js`) -/

/-- One entry of the activity log. -/
structure LogEntry where
  timestamp : String
  message : String
  type : String
  deriving DecidableEq, Repr

/-- A tracked item as stored by `addCourse`. -/
structure Course where
  key : String
  code : String
  «section» : String
  deriving DecidableEq, Repr

/-- The `lastAvailability` object: item key to last observed availability. -/
abbrev Availability := List (String × Bool)

/-- Property read `obj[key]` (`none` is `undefined`). -/
def Availability.get (m : Availability) (key : String) : Option Bool :=
  (m.find? (fun p => p.1 == key)).map (fun p => p.2)

/-- Property write `obj[key] = value`. -/
def Availability.set : Availability → String → Bool → Availability
  | [], key, value => [(key, value)]
  | (k, v) :: rest, key, value =>
    if k == key then (k, value) :: rest else (k, v) :: Availability.set rest key value

/-- Contents of `storage.local`: each key is either absent (`none`) or holds a
value. `intervalMinutes` is the legacy key of older versions. -/
structure Store where
  courses : Option (List Course) := none
  intervalSeconds : Option Nat := none
  monitoring : Option Bool := none
  logs : Option (List LogEntry) := none
  lastAvailability : Option Availability := none
  lastCheck : Option String := none
  theme : Option String := none
  checkUrl : Option String := none
  intervalMinutes : Option Nat := none
  deriving DecidableEq, Repr

/-- The object `getState` works on: the keys of `DEFAULT_STATE`, plus the
`intervalMinutes` property, which is `undefined` (`none`) unless the object
spread from the store read supplies it. `lastCheck = none` is `null`. -/
structure State where
  courses : List Course
  intervalSeconds : Nat
  monitoring : Bool
  logs : List LogEntry
  lastAvailability : Availability
  lastCheck : Option String
  theme : String
  checkUrl : String
  intervalMinutes : Option Nat
  deriving DecidableEq, Repr

/-- The constant `DEFAULT_STATE`. -/
def DEFAULT_STATE : State where
  courses := []
  intervalSeconds := 30
  monitoring := false
  logs := []
  lastAvailability := []
  lastCheck := none
  theme := "light"
  checkUrl := "https://rds3.northsouth.edu/"
  intervalMinutes := none

/-- What `storage.get(DEFAULT_STATE)` resolves to: an object with exactly the
keys of the defaults object, each holding the stored value if the key is
present in the store and the default otherwise. -/
structure Fetched where
  courses : List Course
  intervalSeconds : Nat
  monitoring : Bool
  logs : List LogEntry
  lastAvailability : Availability
  lastCheck : Option String
  theme : String
  checkUrl : String
  deriving DecidableEq, Repr

/-- The host call `storage.local.get(defaults)`. -/
def storageGet (defaults : State) (s : Store) : Fetched where
  courses := s.courses.getD defaults.courses
  intervalSeconds := s.intervalSeconds.getD defaults.intervalSeconds
  monitoring := s.monitoring.getD defaults.monitoring
  logs := s.logs.getD defaults.logs
  lastAvailability := s.lastAvailability.getD defaults.lastAvailability
  lastCheck := match s.lastCheck with
    | some t => some t
    | none => defaults.lastCheck
  theme := s.theme.getD defaults.theme
  checkUrl := s.checkUrl.getD defaults.checkUrl

/-- The object spread `{ ...defaults, ...state }`: every key of `state`
overrides the default; `intervalMinutes` is not a key of `state`. -/
def mergeState (defaults : State) (state : Fetched) : State where
  courses := state.courses
  intervalSeconds := state.intervalSeconds
  monitoring := state.monitoring
  logs := state.logs
  lastAvailability := state.lastAvailability
  lastCheck := state.lastCheck
  theme := state.theme
  checkUrl := state.checkUrl
  intervalMinutes := defaults.intervalMinutes

/-- JavaScript truthiness of a number. -/
def truthyNum (n : Nat) : Bool := n != 0

/-- JavaScript truthiness of a possibly undefined number. -/
def truthyOptNum : Option Nat → Bool
  | none => false
  | some n => truthyNum n

/-- JavaScript truthiness of a string. -/
def truthyStr (s : String) : Bool := s != ""

/-- A raised notification (`api.notifications.create`): its options. The
notification id, taken from `Date.now()`, is not recorded. -/
structure Notification where
  title : String
  message : String
  deriving DecidableEq, Repr

/-- Everything the background script can change: the store, the module
variable `isChecking`, the tabs currently open, the number of tabs created so
far, the notifications raised so far and the number of clock reads so far. -/
structure World where
  store : Store := {}
  isChecking : Bool := false
  openTabs : List Nat := []
  tabsCreated : Nat := 0
  notifications : List Notification := []
  dateReads : Nat := 0
  deriving DecidableEq, Repr

/-- A response of the content script to `checkSeats`. -/
structure CheckResult where
  key : String
  label : String
  available : Bool
  seats : Option Nat
  note : String
  deriving DecidableEq, Repr

/-- The response object: `results` and `error` may each be missing. -/
structure Response where
  results : Option (List CheckResult) := none
  error : Option String := none
  deriving DecidableEq, Repr

/-- How the promise of `sendMessageToTab` settles relative to the deadline:
it resolves with a value (possibly `undefined`), it rejects, or it does
neither before the timer fires. -/
inductive SendOutcome where
  | resolved (response : Option Response)
  | rejected (message : String)
  | silent
  deriving DecidableEq, Repr

/-- What the host decides during one call. -/
structure Host where
  isBrowser : Bool
  clock : Nat → String
  createTab : Except String Nat
  tabReady : Bool
  sendMessage : SendOutcome
  removeTabError : Option String

/-- The function `getState`. -/
def getState (w : World) : State × World :=
  let state := storageGet DEFAULT_STATE w.store
  let merged := mergeState DEFAULT_STATE state
  if !truthyNum merged.intervalSeconds && truthyOptNum merged.intervalMinutes then
    let seconds := merged.intervalMinutes.getD 0 * 60
    let merged := { merged with intervalSeconds := seconds, intervalMinutes := none }
    (merged, { w with store := { w.store with intervalSeconds := some seconds } })
  else
    (merged, w)

/-- The expression `new Date().toISOString()`. -/
def readClock (h : Host) (w : World) : String × World :=
  (h.clock w.dateReads, { w with dateReads := w.dateReads + 1 })

/-- The function `addLog`; every call passes `type` (the source's default is
`info`). -/
def addLog (h : Host) (w : World) (message : String) (type : String) : World :=
  let (state, w) := getState w
  let (now, w) := readClock h w
  let entry : LogEntry := { timestamp := now, message := message, type := type }
  let nextLogs := (entry :: state.logs).take 50
  { w with store := { w.store with logs := some nextLogs } }

/-- The function `notifyAvailability`: one call of `api.notifications.create`
with the fixed title and the message built from the label. -/
def notifyAvailability (w : World) (courseLabel : String) : World :=
  let message := "Seats available for " ++ courseLabel ++ "."
  { w with notifications :=
      w.notifications ++ [{ title := "NSU Advising Assistant", message := message }] }

/-- How a block of asynchronous code ends: it completes with a value, it
throws an error with a message, or it awaits a promise that never settles. -/
inductive Completion (α : Type) where
  | normal (value : α) (w : World)
  | threw (message : String) (w : World)
  | never (w : World)
  deriving DecidableEq, Repr

/-- The function `createTab`: the host either opens a tab and yields its id or
fails with an error, which rejects the promise. -/
def createTab (h : Host) (w : World) : Completion Nat :=
  match h.createTab with
  | .ok tabId =>
    .normal tabId { w with openTabs := tabId :: w.openTabs, tabsCreated := w.tabsCreated + 1 }
  | .error message => .threw message w

/-- The function `withTimeout` applied to the promise of `sendMessageToTab`:
the first of the promise and the timer to settle decides. -/
def withTimeout (promise : SendOutcome) (message : String) : Except String (Option Response) :=
  match promise with
  | .resolved value => .ok value
  | .rejected error => .error error
  | .silent => .error message

/-- The function `removeTab`: when the host fails to remove the tab, the
awaited call (`isBrowser`) rejects, the call that is not awaited does not. -/
def removeTab (h : Host) (w : World) (tabId : Nat) : Option String × World :=
  match h.removeTabError with
  | none => (none, { w with openTabs := w.openTabs.erase tabId })
  | some message => if h.isBrowser then (some message, w) else (none, w)

/-- Lines 180 to 189 of `checkCourses`: wait for the tab, send `checkSeats`
under the 15 second deadline, and remove the tab in the `finally` block. An
error thrown by the `finally` block replaces the completion of the `try` block. -/
def delegate (h : Host) (w : World) (tabId : Nat) : Completion (Option Response) :=
  if !h.tabReady then .never w
  else
    let sent := withTimeout h.sendMessage "Timed out waiting for seat availability response."
    match removeTab h w tabId with
    | (some message, w) => .threw message w
    | (none, w) =>
      match sent with
      | .ok response => .normal response w
      | .error message => .threw message w

/-- JavaScript truthiness of `lastAvailability[key]`. -/
def truthyOptBool : Option Bool → Bool
  | none => false
  | some b => b

/-- One iteration of the loop over the results at the end of `checkCourses`. -/
def reportResult (h : Host) (state : State) (w : World) (result : CheckResult) : World :=
  let wasAvailable := state.lastAvailability.get result.key
  if result.available && !truthyOptBool wasAvailable then
    let w := notifyAvailability w result.label
    addLog h w ("Seats available for " ++ result.label ++ ".") "success"
  else if !result.available then
    addLog h w ("No seats for " ++ result.label ++ ".") "info"
  else w

/-- Lines 191 to 221 of `checkCourses`: what follows the delegation, given
the state read at the start of the cycle and the response received. -/
def reconcile (h : Host) (state : State) (w : World) (response : Option Response) : World :=
  match response with
  | none => addLog h w "No data returned from content script." "error"
  | some response =>
    if truthyStr (response.error.getD "") then
      addLog h w (response.error.getD "") "error"
    else
      let results := response.results.getD []
      let newAvailability :=
        results.foldl (fun m result => m.set result.key result.available)
          state.lastAvailability
      let (now, w) := readClock h w
      let w := { w with store :=
        { w.store with lastAvailability := some newAvailability, lastCheck := some now } }
      let availableCourses := results.filter (fun result => result.available)
      let w :=
        if availableCourses.length == 0 then
          addLog h w "No seats found in monitored courses." "info"
        else w
      results.foldl (reportResult h state) w

/-- The `try` block of `checkCourses`. -/
def checkCoursesBody (h : Host) (w : World) : Completion Unit :=
  let (state, w) := getState w
  if state.courses.length == 0 then
    .normal () (addLog h w "No courses configured for monitoring." "warning")
  else
    let w := addLog h w "Starting seat availability check..." "info"
    match createTab h w with
    | .threw message w => .threw message w
    | .never w => .never w
    | .normal tabId w =>
      match delegate h w tabId with
      | .threw message w => .threw message w
      | .never w => .never w
      | .normal response w => .normal () (reconcile h state w response)

/-- How a call of `checkCourses` ends: it returns, or it stays suspended at an
`await` that never settles. -/
inductive Run where
  | returned (w : World)
  | pending (w : World)
  deriving DecidableEq, Repr

/-- The function `checkCourses` of `background.js`. -/
def checkCourses (h : Host) (w : World) : Run :=
  if w.isChecking then .returned w
  else
    let w := { w with isChecking := true }
    match checkCoursesBody h w with
    | .normal _ w => .returned { w with isChecking := false }
    | .threw message w =>
      let w := addLog h w ("Error while checking seats: " ++ message) "error"
      .returned { w with isChecking := false }
    | .never w => .pending w

/-- The `course` payload of the `addCourse` command: `section` may be missing. -/
structure CourseInput where
  code : String
  «section» : Option String := none
  deriving DecidableEq, Repr

/-- Line 249 of `addCourse`: `course.code.trim().toUpperCase()`. -/
def courseCode (course : CourseInput) : String := toUpperCase (trim course.code)

/-- Line 250 of `addCourse`: `course.section ? course.section.trim() : ''`. -/
def courseSection (course : CourseInput) : String :=
  match course.«section» with
  | some s => if truthyStr s then trim s else ""
  | none => ""

/-- Line 251 of `addCourse`: the key built from code and section. -/
def courseKey (course : CourseInput) : String :=
  courseCode course ++ "|" ++ courseSection course

/-- The function `addCourse`. -/
def addCourse (h : Host) (w : World) (course : CourseInput) : World :=
  let (state, w) := getState w
  let code := courseCode course
  let sec := courseSection course
  let key := courseKey course
  if state.courses.any (fun item => item.key == key) then
    addLog h w ("Course " ++ code ++ " already in list.") "warning"
  else
    let nextCourses := state.courses ++ [{ key := key, code := code, «section» := sec }]
    let w := { w with store := { w.store with courses := some nextCourses } }
    addLog h w
      ("Added course " ++ code ++ (if truthyStr sec then " (" ++ sec ++ ")" else "") ++ ".")
      "success"

/-! ## Extraction heuristic (`content.js`) -/

namespace Content

/-- The function `normalize`: `value.replace(/\s+/g, '').toUpperCase()`. -/
def normalize (value : String) : String :=
  toUpperCase ⟨value.data.filter (fun c => !isWhiteSpace c)⟩

/-- Membership in the class `[0-9]`. -/
def isDigit (c : Char) : Bool := 48 ≤ c.toNat && c.toNat ≤ 57

/-- The expression `cell.replace(/[^0-9]/g, '')`. -/
def digitsOf (cell : String) : String := ⟨cell.data.filter isDigit⟩

/-- Base-10 value of a list of decimal digits. -/
def decimalValue (digits : List Char) : Nat :=
  digits.foldl (fun acc c => acc * 10 + (c.toNat - 48)) 0

/-- Position of the highest set bit of `n` (`0` for `n < 2`), by halving. -/
def floorLog2 : Nat → Nat → Nat
  | 0, _ => 0
  | fuel + 1, n => if n < 2 then 0 else floorLog2 fuel (n / 2) + 1

/-- The Number value of a non-negative integer: JavaScript numbers are IEEE 754
doubles, so an integer below `2 ^ 53` is kept, a larger one is rounded to 53
significant bits (to nearest, ties to the even significand), and a rounded
value of `2 ^ 1024` or more is `Infinity`, for which `2 ^ 1024` stands. -/
def toNumber (n : Nat) : Nat :=
  if n < 2 ^ 53 then n
  else
    let e := floorLog2 n n - 52
    let q := n / 2 ^ e
    let r := n % 2 ^ e
    let half := 2 ^ (e - 1)
    let m := if r < half then q else if half < r then q + 1 else if q % 2 = 0 then q else q + 1
    if 1024 ≤ floorLog2 m m + e then 2 ^ 1024 else m * 2 ^ e

/-- `Number.parseInt(s, 10)` on a string of decimal digits: `NaN` (`none`) for
the empty string, otherwise the Number value of the denoted integer (every
digit taken as significant). -/
def parseInt (s : String) : Option Nat :=
  if s.data.isEmpty then none else some (toNumber (decimalValue s.data))

/-- The function `parseSeatCount`; `seatIndex = none` is `null`. -/
def parseSeatCount (cells : List String) (seatIndex : Option Nat) : Option Nat :=
  match seatIndex with
  | some i =>
    if i < cells.length then parseInt (digitsOf (cells.getD i ""))
    else ((cells.map (fun cell => parseInt (digitsOf cell))).filterMap id).getLast?
  | none => ((cells.map (fun cell => parseInt (digitsOf cell))).filterMap id).getLast?

/-- A `table` element as the script queries it: the text contents of its
`thead th` cells, and for each of its `tr` rows in document order the text
contents of the row's `td, th` cells. -/
structure Table where
  headerCells : List String
  rows : List (List String)
  deriving DecidableEq, Repr

/-- The document: its tables in document order. -/
abbrev Document := List Table

/-- The function `findSeatIndex`. -/
def findSeatIndex (table : Table) : Option Nat :=
  if table.headerCells.length == 0 then none
  else
    let labels := table.headerCells.map (fun cell => toLowerCase (trim cell))
    labels.findIdx? (fun label => includes label "seat" || includes label "available")

/-- The function `collectRows`: every `table tr`, each with its closest table. -/
def collectRows (doc : Document) : List (Table × List String) :=
  (doc.map (fun table => table.rows.map (fun row => (table, row)))).flatten

/-- `Array.prototype.join(' ')` on strings. -/
def joinSpace : List String → String
  | [] => ""
  | [cell] => cell
  | cell :: rest => cell ++ " " ++ joinSpace rest

/-- The tests of the row loop of `checkCourses` on the trimmed cell texts of
one row: `true` when the loop reaches `matchedRow = cells`. -/
def rowMatches (normalizedCode normalizedSection : String) (cells : List String) : Bool :=
  if cells.length == 0 then false
  else
    let rowText := normalize (joinSpace cells)
    if !includes rowText normalizedCode then false
    else if truthyStr normalizedSection then
      cells.any (fun cell => normalize cell == normalizedSection)
    else true

/-- The row loop of `checkCourses`: the first matching row's trimmed cells,
with the seat index found in its table. -/
def findMatch (rows : List (Table × List String)) (normalizedCode normalizedSection : String) :
    Option (List String × Option Nat) :=
  match rows with
  | [] => none
  | (table, row) :: rest =>
    let cells := row.map trim
    if rowMatches normalizedCode normalizedSection cells then
      some (cells, findSeatIndex table)
    else findMatch rest normalizedCode normalizedSection

/-- The label of a result. -/
def labelOf (course : Course) : String :=
  if truthyStr course.«section» then course.code ++ " (" ++ course.«section» ++ ")"
  else course.code

/-- The body of `courses.forEach` in `checkCourses`: the result for one item. -/
def checkCourse (doc : Document) (course : Course) : CheckResult :=
  let rows := collectRows doc
  let courseKey :=
    if truthyStr course.key then course.key else course.code ++ "|" ++ course.«section»
  let normalizedCode := normalize course.code
  let normalizedSection := normalize course.«section»
  match findMatch rows normalizedCode normalizedSection with
  | none =>
    { key := courseKey, label := labelOf course, available := false, seats := none,
      note := "Course not found on page." }
  | some (matchedRow, seatIndex) =>
    let seats := parseSeatCount matchedRow seatIndex
    let available := match seats with
      | some n => decide (n > 0)
      | none => false
    { key := courseKey, label := labelOf course, available := available, seats := seats,
      note := if seats.isNone then "Unable to parse seat count." else "Parsed from page." }

/-- The function `checkCourses` of `content.js`. -/
def checkCourses (doc : Document) (courses : List Course) : List CheckResult :=
  courses.map (checkCourse doc)

end Content

/-! ## Test data -/

/-- A clock whose `n`-th reading is the decimal numeral of `n`. -/
def testClock (n : Nat) : String := toString n

/-- A host on which the tab opens, loads, answers `response` and is removed. -/
def okHost (response : Response) : Host where
  isBrowser := true
  clock := testClock
  createTab := .ok 7
  tabReady := true
  sendMessage := .resolved (some response)
  removeTabError := none

/-- A world tracking `CS101`, section `1`, with nothing else stored. -/
def trackingWorld : World :=
  { store := { courses := some [{ key := "CS101|1", code := "CS101", «section» := "1" }] } }

/-- A store left by an older version: only the legacy interval is present. -/
def legacyStore (minutes : Nat) : Store := { intervalMinutes := some minutes }

/-- The log entry that the `k`-th call of a sequence of `addLog` calls
creates when the clock had been read `reads` times before the sequence. -/
def entryOf (h : Host) (reads : Nat) (k : Nat) (call : String × String) : LogEntry :=
  { timestamp := h.clock (reads + k), message := call.1, type := call.2 }

/-- The entries created by a sequence of `addLog` calls, in call order. -/
def entriesOf (h : Host) (reads : Nat) : List (String × String) → List LogEntry
  | [] => []
  | call :: rest => entryOf h reads 0 call :: entriesOf h (reads + 1) rest

/-- A sequence of `addLog` calls, each given as message and type. -/
def addLogs (h : Host) (w : World) (calls : List (String × String)) : World :=
  calls.foldl (fun w call => addLog h w call.1 call.2) w

/-- The world in which a call of `checkCourses` ends or stays suspended. -/
def Run.world : Run → World
  | .returned w => w
  | .pending w => w

/-- The notification that `notifyAvailability` raises for a label. -/
def alertFor (label : String) : Notification :=
  { title := "NSU Advising Assistant", message := "Seats available for " ++ label ++ "." }

/-- The alerts the specification expects for a list of results against the
availability map read before the check: one per result that is available and
whose prior value is `false` or absent, in result order. -/
def expectedAlerts (prior : Availability) (results : List CheckResult) : List Notification :=
  (results.filter (fun r =>
    r.available && decide (prior.get r.key = some false ∨ prior.get r.key = none))).map
    (fun r => alertFor r.label)

/-- The ways the delegation of a cycle fails: the deadline expires, the
promise rejects, no response is returned, or the response carries an `error`
field. The field holds the message of the exception that `handleMessage`
(`content.js`, lines 100 to 105) caught, which is not the empty string. -/
def delegationFails : SendOutcome → Bool
  | .silent => true
  | .rejected _ => true
  | .resolved none => true
  | .resolved (some response) => truthyStr (response.error.getD "")

/-- A result reporting five seats for `CS101`, section `1`. -/
def cs101Open : CheckResult :=
  { key := "CS101|1", label := "CS101 (1)", available := true, seats := some 5,
    note := "Parsed from page." }

/-- A result reporting seats for an item that already had seats. -/
def mat120Open : CheckResult :=
  { key := "MAT120|", label := "MAT120", available := true, seats := some 2,
    note := "Parsed from page." }

/-- A result reporting no seats. -/
def eng102Full : CheckResult :=
  { key := "ENG102|", label := "ENG102", available := false, seats := some 0,
    note := "Parsed from page." }

/-- A world tracking three items, with availability known for two of them. -/
def observedWorld : World :=
  { store :=
    { courses := some [{ key := "CS101|1", code := "CS101", «section» := "1" },
        { key := "MAT120|", code := "MAT120", «section» := "" },
        { key := "ENG102|", code := "ENG102", «section» := "" }],
      lastAvailability := some [("MAT120|", true), ("CS101|1", false)] } }

/-- A host of the awaiting kind (`isBrowser`) on which removing the tab fails. -/
def stuckTabHost (response : Response) : Host :=
  { okHost response with removeTabError := some "No tab with id: 7." }

/-- A host on which the content script never answers before the deadline. -/
def timeoutHost : Host :=
  { okHost {} with sendMessage := .silent }

/-- The concatenation of the cell texts of a row. -/
def concatText (cells : List String) : String := ⟨(cells.map String.data).flatten⟩

/-- The matching condition as the specification words it, on the cell texts
of a row: the row has a cell, the normalized concatenation of its cell texts
contains the normalized code, and when the normalized section is non-empty
some cell's normalized text equals it. -/
def specRowMatches (course : Course) (row : List String) : Prop :=
  0 < row.length ∧
    includes (Content.normalize (concatText row)) (Content.normalize course.code) = true ∧
    (Content.normalize course.«section» ≠ "" →
      ∃ cell ∈ row, Content.normalize cell = Content.normalize course.«section»)

/-- A header cell whose label (trimmed, lower-cased) includes `seat` or `available`. -/
def isSeatLabel (cell : String) : Bool :=
  includes (toLowerCase (trim cell)) "seat" || includes (toLowerCase (trim cell)) "available"

/-- A table with header `Code, Section, Seats` and one data row. -/
def seatTable (row : List String) : Content.Table where
  headerCells := ["Code", "Section", "Seats"]
  rows := [["Code", "Section", "Seats"], row]

/-- The tracked item `CS101`, section `1`. -/
def cs101 : Course := { key := "CS101|1", code := "CS101", «section» := "1" }

/-- The fallback as the specification words it, on the cell texts of a row:
reduce every cell to its digit characters, discard the cells left with no
digit, and take the base-10 value of the last remaining cell in row order
(`none`, the source's `null`, when no cell contains a digit). -/
def specLastNumber (row : List String) : Option Nat :=
  (((row.map (fun cell => cell.data.filter Content.isDigit)).filter
    (fun digits => !digits.isEmpty)).getLast?).map Content.decimalValue

/-- No header-based seat column applies to a row of a table: the table has no
`thead th` cells, or no header label includes `seat` or `available`, or the
index of the first such label lies outside the row. -/
def noHeaderColumn (table : Content.Table) (row : List String) : Prop :=
  table.headerCells = [] ∨
    (∀ cell ∈ table.headerCells, isSeatLabel cell = false) ∨
    ∃ i, i < table.headerCells.length ∧
      isSeatLabel (table.headerCells.getD i "") = true ∧
      (∀ j < i, isSeatLabel (table.headerCells.getD j "") = false) ∧
      row.length ≤ i

/-- A table without header cells whose only row is `CS101, 1, Full`. -/
def headlessTable : Content.Table where
  headerCells := []
  rows := [["CS101", "1", "Full"]]

/-- A table whose seat column, the fourth, lies outside its three-cell row. -/
def shortRowTable : Content.Table where
  headerCells := ["Code", "Section", "Room", "Seats"]
  rows := [["CS101", "1", "NAC"]]

/-- A table with header `Code, Section, Seats` whose seat cell holds `2 ^ 53 + 1`. -/
def longSeatTable : Content.Table := seatTable ["CS101", "1", "9007199254740993"]

/-- A table without header cells whose last cell with a digit holds `2 ^ 53 + 1`. -/
def longCellTable : Content.Table where
  headerCells := []
  rows := [["CS101", "1", "9007199254740993"]]

/-! ## Theorems -/

theorem getState_eq (w : World) :
    getState w = (mergeState DEFAULT_STATE (storageGet DEFAULT_STATE w.store), w) := by
  simp [getState, mergeState, DEFAULT_STATE, truthyOptNum]

theorem getState_logs (w : World) : (getState w).1.logs = w.store.logs.getD [] := by
  simp [getState_eq, mergeState, storageGet, DEFAULT_STATE]

theorem getState_courses (w : World) : (getState w).1.courses = w.store.courses.getD [] := by
  simp [getState_eq, mergeState, storageGet, DEFAULT_STATE]

theorem getState_lastAvailability (w : World) :
    (getState w).1.lastAvailability = w.store.lastAvailability.getD [] := by
  simp [getState_eq, mergeState, storageGet, DEFAULT_STATE]

theorem addLog_eq (h : Host) (w : World) (message type : String) :
    addLog h w message type =
      { w with
        store := { w.store with
          logs := some ((LogEntry.mk (h.clock w.dateReads) message type ::
            w.store.logs.getD []).take 50) },
        dateReads := w.dateReads + 1 } := by
  simp [addLog, getState_eq, readClock, mergeState, storageGet, DEFAULT_STATE]

/-! ### Activity log -/

theorem take_append_take {α : Type} (n : Nat) (a b : List α) :
    (a ++ b.take n).take n = (a ++ b).take n := by
  rw [List.take_append_eq_append_take, List.take_append_eq_append_take, List.take_take]
  congr 2
  omega

theorem entriesOf_length (h : Host) (reads : Nat) (calls : List (String × String)) :
    (entriesOf h reads calls).length = calls.length := by
  induction calls generalizing reads with
  | nil => rfl
  | cons call rest ih => simp [entriesOf, ih]

theorem addLogs_cons (h : Host) (w : World) (call : String × String)
    (rest : List (String × String)) :
    addLogs h w (call :: rest) = addLogs h (addLog h w call.1 call.2) rest := rfl

theorem addLogs_take (h : Host) (w : World) (calls : List (String × String)) :
    ((addLogs h w calls).store.logs.getD []).take 50 =
      ((entriesOf h w.dateReads calls).reverse ++ w.store.logs.getD []).take 50 := by
  induction calls generalizing w with
  | nil => simp [addLogs, entriesOf]
  | cons call rest ih =>
    rw [addLogs_cons, ih, addLog_eq]
    simp only [Option.getD_some, entriesOf, entryOf, List.reverse_cons, List.append_assoc,
      List.singleton_append, Nat.add_zero]
    rw [take_append_take]

theorem addLogs_bounded (h : Host) (w : World) (calls : List (String × String))
    (hw : (w.store.logs.getD []).length ≤ 50) :
    ((addLogs h w calls).store.logs.getD []).length ≤ 50 := by
  induction calls generalizing w with
  | nil => simpa [addLogs] using hw
  | cons call rest ih =>
    rw [addLogs_cons]
    apply ih
    rw [addLog_eq]
    simp only [Option.getD_some, List.length_take]
    omega

theorem addLogs_bounded_of_ne_nil (h : Host) (w : World) (calls : List (String × String))
    (hvalid : calls ≠ [] ∨ (w.store.logs.getD []).length ≤ 50) :
    ((addLogs h w calls).store.logs.getD []).length ≤ 50 := by
  cases calls with
  | nil =>
    rcases hvalid with hne | hle
    · exact absurd rfl hne
    · exact addLogs_bounded h w [] hle
  | cons call rest =>
    rw [addLogs_cons]
    apply addLogs_bounded
    rw [addLog_eq]
    simp only [Option.getD_some, List.length_take]
    omega

/-- C4: after any sequence of `addLog` calls (on a log within the bound of 50,
or after at least one call) the stored log is the first 50 entries of the new
entries in reverse call order followed by the initial log; its length is
`min 50 (n + initial length)`; after 60 calls it is exactly the 50 most recent
entries, newest first. -/
theorem addLog_sequence (h : Host) (w : World) (calls : List (String × String))
    (hvalid : calls ≠ [] ∨ (w.store.logs.getD []).length ≤ 50) :
    (addLogs h w calls).store.logs.getD [] =
        ((entriesOf h w.dateReads calls).reverse ++ w.store.logs.getD []).take 50 ∧
      ((addLogs h w calls).store.logs.getD []).length =
        min 50 (calls.length + (w.store.logs.getD []).length) ∧
      (calls.length = 60 →
        (addLogs h w calls).store.logs.getD [] =
          ((entriesOf h w.dateReads calls).drop 10).reverse) := by
  have hb := addLogs_bounded_of_ne_nil h w calls hvalid
  have ht := addLogs_take h w calls
  rw [List.take_of_length_le hb] at ht
  refine ⟨ht, ?_, ?_⟩
  · rw [ht, List.length_take, List.length_append, List.length_reverse, entriesOf_length]
  · intro h60
    rw [ht, List.take_append_of_le_length (by simp [entriesOf_length, h60]), List.take_reverse,
      entriesOf_length, h60]

/-- Witness for C4: three calls on an empty store. -/
theorem addLog_sequence_witness :
    (addLogs (okHost {}) {} [("a", "info"), ("b", "error"), ("c", "info")]).store.logs.getD [] =
      [⟨"2", "c", "info"⟩, ⟨"1", "b", "error"⟩, ⟨"0", "a", "info"⟩] := by
  have key := (addLog_sequence (okHost {}) {} [("a", "info"), ("b", "error"), ("c", "info")]
    (Or.inl (by decide))).1
  rw [key]
  decide

/-! ### Check coordinator -/

theorem addLog_notifications (h : Host) (w : World) (message type : String) :
    (addLog h w message type).notifications = w.notifications := by
  rw [addLog_eq]

theorem reportResult_notifications (h : Host) (state : State) (w : World) (r : CheckResult) :
    (reportResult h state w r).notifications =
      w.notifications ++ expectedAlerts state.lastAvailability [r] := by
  unfold reportResult expectedAlerts
  cases hk : state.lastAvailability.get r.key with
  | none => cases ha : r.available <;>
      simp [truthyOptBool, addLog_notifications, notifyAvailability, alertFor, hk, ha]
  | some b => cases b <;> cases ha : r.available <;>
      simp [truthyOptBool, addLog_notifications, notifyAvailability, alertFor, hk, ha]

theorem expectedAlerts_cons (prior : Availability) (r : CheckResult) (rs : List CheckResult) :
    expectedAlerts prior (r :: rs) = expectedAlerts prior [r] ++ expectedAlerts prior rs := by
  unfold expectedAlerts
  rw [← List.map_append, ← List.filter_append]
  rfl

theorem foldl_reportResult_notifications (h : Host) (state : State) (results : List CheckResult)
    (w : World) :
    (results.foldl (reportResult h state) w).notifications =
      w.notifications ++ expectedAlerts state.lastAvailability results := by
  induction results generalizing w with
  | nil => simp [expectedAlerts]
  | cons r rs ih =>
    rw [List.foldl_cons, ih, reportResult_notifications, List.append_assoc,
      ← expectedAlerts_cons]

/-- The world after the `starting` entry of a cycle has been logged. -/
theorem started_eq (h : Host) (w : World) :
    addLog h { w with isChecking := true } "Starting seat availability check..." "info" =
      { w with
        isChecking := true,
        store := { w.store with
          logs := some ((LogEntry.mk (h.clock w.dateReads)
            "Starting seat availability check..." "info" :: w.store.logs.getD []).take 50) },
        dateReads := w.dateReads + 1 } := by
  rw [addLog_eq]

theorem checkCoursesBody_delegated (h : Host) (w : World) (tabId : Nat)
    (hcourses : (w.store.courses.getD []).length ≠ 0)
    (htab : h.createTab = .ok tabId) :
    checkCoursesBody h { w with isChecking := true } =
      match delegate h
        { addLog h { w with isChecking := true } "Starting seat availability check..." "info" with
          openTabs := tabId :: w.openTabs, tabsCreated := w.tabsCreated + 1 } tabId with
      | .threw message v => .threw message v
      | .never v => .never v
      | .normal response v =>
        .normal () (reconcile h (getState { w with isChecking := true }).1 v response) := by
  have hc : (getState { w with isChecking := true }).1.courses.length ≠ 0 := by
    rw [getState_courses]; exact hcourses
  unfold checkCoursesBody
  rw [getState_eq] at hc ⊢
  simp only [beq_iff_eq, hc, if_false, createTab, htab, started_eq]

theorem delegate_released (h : Host) (v : World) (tabId : Nat)
    (hready : h.tabReady = true)
    (hremove : h.removeTabError = none ∨ h.isBrowser = false) :
    ∃ tabs : List Nat, delegate h v tabId =
      match withTimeout h.sendMessage "Timed out waiting for seat availability response." with
      | .ok response => .normal response { v with openTabs := tabs }
      | .error message => .threw message { v with openTabs := tabs } := by
  cases hx : h.removeTabError with
  | none =>
    refine ⟨v.openTabs.erase tabId, ?_⟩
    simp only [delegate, hready, removeTab, hx, Bool.not_true, Bool.false_eq_true, if_false]
  | some m =>
    have hb : h.isBrowser = false := by
      rcases hremove with hr | hr
      · rw [hx] at hr; exact absurd hr (by simp)
      · exact hr
    refine ⟨v.openTabs, ?_⟩
    simp only [delegate, hready, removeTab, hx, hb, Bool.not_true, Bool.false_eq_true, if_false]

theorem reconcile_notifications (h : Host) (state : State) (v : World) (response : Response)
    (hok : truthyStr (response.error.getD "") = false) :
    (reconcile h state v (some response)).notifications =
      v.notifications ++ expectedAlerts state.lastAvailability (response.results.getD []) := by
  simp only [reconcile, hok, Bool.false_eq_true, if_false, readClock,
    foldl_reportResult_notifications]
  split <;> simp only [addLog_notifications]

/-- On a cycle whose extraction succeeds and whose tab release does not throw,
`checkCourses` returns and the notifications it raises are, in result order,
exactly one per result that is available and whose value in the
`lastAvailability` map read before the check is `false` or absent, each with
the message `Seats available for <label>.`. -/
theorem checkCourses_alerts (h : Host) (w : World) (tabId : Nat) (response : Response)
    (hflag : w.isChecking = false)
    (hcourses : (w.store.courses.getD []).length ≠ 0)
    (htab : h.createTab = .ok tabId)
    (hready : h.tabReady = true)
    (hsend : h.sendMessage = .resolved (some response))
    (hok : truthyStr (response.error.getD "") = false)
    (hremove : h.removeTabError = none ∨ h.isBrowser = false) :
    ∃ w', checkCourses h w = .returned w' ∧
      w'.notifications = w.notifications ++
        expectedAlerts (w.store.lastAvailability.getD []) (response.results.getD []) := by
  obtain ⟨tabs, htabs⟩ := delegate_released h
    { addLog h { w with isChecking := true } "Starting seat availability check..." "info" with
      openTabs := tabId :: w.openTabs, tabsCreated := w.tabsCreated + 1 } tabId hready hremove
  simp only [checkCourses, hflag, Bool.false_eq_true, if_false,
    checkCoursesBody_delegated h w tabId hcourses htab, htabs, hsend, withTimeout]
  refine ⟨_, rfl, ?_⟩
  simp only [reconcile_notifications _ _ _ _ hok, addLog_notifications,
    getState_lastAvailability]

/-- An instance of `checkCourses_alerts`: of three results only the one that
newly has seats alerts. -/
theorem checkCourses_alerts_witness :
    ∃ w', checkCourses (okHost { results := some [cs101Open, mat120Open, eng102Full] })
        observedWorld = .returned w' ∧
      w'.notifications = [alertFor "CS101 (1)"] := by
  obtain ⟨w', hrun, halerts⟩ :=
    checkCourses_alerts (okHost { results := some [cs101Open, mat120Open, eng102Full] })
      observedWorld 7 { results := some [cs101Open, mat120Open, eng102Full] }
      rfl (by decide) rfl rfl rfl (by decide) (Or.inl rfl)
  exact ⟨w', hrun, halerts.trans (by decide)⟩

theorem delegate_release_throws (h : Host) (v : World) (tabId : Nat) (message : String)
    (hready : h.tabReady = true)
    (hbrowser : h.isBrowser = true) (hremove : h.removeTabError = some message) :
    delegate h v tabId = .threw message v := by
  simp only [delegate, hready, removeTab, hremove, hbrowser, Bool.not_true, Bool.false_eq_true,
    if_false, if_true]

theorem error_logged (h : Host) (w : World) (tabs : List Nat) (created : Nat)
    (message : String) :
    (addLog h
      { addLog h { w with isChecking := true } "Starting seat availability check..." "info" with
        openTabs := tabs, tabsCreated := created } message "error").store =
      { w.store with
        logs := some ((LogEntry.mk (h.clock (w.dateReads + 1)) message "error" ::
          LogEntry.mk (h.clock w.dateReads) "Starting seat availability check..." "info" ::
          w.store.logs.getD []).take 50) } := by
  rw [started_eq, addLog_eq]
  simp only [Option.getD_some]
  have key := take_append_take 50 [LogEntry.mk (h.clock (w.dateReads + 1)) message "error"]
    (LogEntry.mk (h.clock w.dateReads) "Starting seat availability check..." "info" ::
      w.store.logs.getD [])
  simp only [List.singleton_append] at key
  rw [key]

/-- C2: when the delegation of a cycle fails (the deadline expires, the send
rejects, no response is returned, or the response carries an `error` field
with the caught exception's message), `checkCourses` returns, the store
differs from the store before the cycle only in the log, which gains the
`starting` entry and then exactly one entry of type `error`, so
`lastAvailability` and `lastCheck` are unchanged, and no notification is
raised. -/
theorem checkCourses_delegation_failure (h : Host) (w : World) (tabId : Nat)
    (hflag : w.isChecking = false)
    (hcourses : (w.store.courses.getD []).length ≠ 0)
    (htab : h.createTab = .ok tabId)
    (hready : h.tabReady = true)
    (hfail : delegationFails h.sendMessage = true) :
    ∃ w' message, checkCourses h w = .returned w' ∧
      w'.store = { w.store with
        logs := some ((LogEntry.mk (h.clock (w.dateReads + 1)) message "error" ::
          LogEntry.mk (h.clock w.dateReads) "Starting seat availability check..." "info" ::
          w.store.logs.getD []).take 50) } ∧
      w'.store.lastAvailability = w.store.lastAvailability ∧
      w'.store.lastCheck = w.store.lastCheck ∧
      w'.notifications = w.notifications ∧
      w'.isChecking = false := by
  have close : ∀ (tabs : List Nat) (message : String),
      ∃ w' msg, Run.returned { (addLog h
          { addLog h { w with isChecking := true } "Starting seat availability check..." "info"
            with openTabs := tabs, tabsCreated := w.tabsCreated + 1 } message "error")
          with isChecking := false } = .returned w' ∧
        w'.store = { w.store with
          logs := some ((LogEntry.mk (h.clock (w.dateReads + 1)) msg "error" ::
            LogEntry.mk (h.clock w.dateReads) "Starting seat availability check..." "info" ::
            w.store.logs.getD []).take 50) } ∧
        w'.store.lastAvailability = w.store.lastAvailability ∧
        w'.store.lastCheck = w.store.lastCheck ∧
        w'.notifications = w.notifications ∧
        w'.isChecking = false := by
    intro tabs message
    refine ⟨_, message, rfl, ?_, ?_, ?_, ?_, rfl⟩
    · exact error_logged h w tabs (w.tabsCreated + 1) message
    · simp only [error_logged h w tabs (w.tabsCreated + 1) message]
    · simp only [error_logged h w tabs (w.tabsCreated + 1) message]
    · simp only [addLog_notifications]
  by_cases hthrow : h.isBrowser = true ∧ ∃ m, h.removeTabError = some m
  · obtain ⟨hb, m, hm⟩ := hthrow
    simp only [checkCourses, hflag, Bool.false_eq_true, if_false,
      checkCoursesBody_delegated h w tabId hcourses htab,
      delegate_release_throws h _ tabId m hready hb hm]
    exact close _ _
  · have hremove : h.removeTabError = none ∨ h.isBrowser = false := by
      cases hx : h.removeTabError with
      | none => exact Or.inl rfl
      | some m =>
        right
        cases hb : h.isBrowser with
        | false => rfl
        | true => exact absurd ⟨hb, m, hx⟩ hthrow
    obtain ⟨tabs, htabs⟩ := delegate_released h
      { addLog h { w with isChecking := true } "Starting seat availability check..." "info" with
        openTabs := tabId :: w.openTabs, tabsCreated := w.tabsCreated + 1 } tabId hready hremove
    cases hsend : h.sendMessage with
    | silent =>
      simp only [checkCourses, hflag, Bool.false_eq_true, if_false,
        checkCoursesBody_delegated h w tabId hcourses htab, htabs, hsend, withTimeout]
      exact close _ _
    | rejected e =>
      simp only [checkCourses, hflag, Bool.false_eq_true, if_false,
        checkCoursesBody_delegated h w tabId hcourses htab, htabs, hsend, withTimeout]
      exact close _ _
    | resolved response =>
      cases response with
      | none =>
        simp only [checkCourses, hflag, Bool.false_eq_true, if_false,
          checkCoursesBody_delegated h w tabId hcourses htab, htabs, hsend, withTimeout,
          reconcile]
        exact close _ _
      | some r =>
        have herr : truthyStr (r.error.getD "") = true := by
          rw [hsend] at hfail; exact hfail
        simp only [checkCourses, hflag, Bool.false_eq_true, if_false,
          checkCoursesBody_delegated h w tabId hcourses htab, htabs, hsend, withTimeout,
          reconcile, herr, if_true]
        exact close _ _

/-- Witness for C2: the deadline expires on a world tracking one item. -/
theorem checkCourses_delegation_failure_witness :
    ∃ w', checkCourses timeoutHost trackingWorld = .returned w' ∧
      w'.store.logs = some
        [⟨"1", "Error while checking seats: Timed out waiting for seat availability response.",
            "error"⟩,
          ⟨"0", "Starting seat availability check...", "info"⟩] ∧
      w'.store.lastAvailability = none ∧ w'.store.lastCheck = none ∧
      w'.notifications = [] := by
  obtain ⟨w', message, hrun, _, hla, hlc, hn, _⟩ :=
    checkCourses_delegation_failure timeoutHost trackingWorld 7 rfl (by decide) rfl rfl rfl
  refine ⟨w', hrun, ?_, hla, hlc, hn⟩
  have hw : w' = (checkCourses timeoutHost trackingWorld).world := by rw [hrun]; rfl
  rw [hw]
  decide

/-- C5: a call of `checkCourses` made while `isChecking` is set returns at
once and changes nothing: no log entry, no store write, no tab, no
notification, and the flag stays set. -/
theorem checkCourses_in_flight (h : Host) (w : World) (hflag : w.isChecking = true) :
    checkCourses h w = .returned w ∧ (checkCourses h w).world.isChecking = true := by
  simp [checkCourses, hflag, Run.world]

/-- Witness for C5: an overlapping trigger on a world with a cycle in flight. -/
theorem checkCourses_in_flight_witness :
    checkCourses (okHost { results := some [cs101Open] })
        { observedWorld with isChecking := true, openTabs := [7], tabsCreated := 1 } =
      .returned { observedWorld with isChecking := true, openTabs := [7], tabsCreated := 1 } :=
  (checkCourses_in_flight (okHost { results := some [cs101Open] })
    { observedWorld with isChecking := true, openTabs := [7], tabsCreated := 1 } rfl).1

/-- C1 (evaluation at the failing input): the response reports seats for an
item whose prior availability is absent, so one alert is expected; with the
awaited `tabs.remove` rejecting in the `finally` block the cycle raises no
alert, while the same response alerts once when the removal succeeds. -/
theorem checkCourses_alerts_lost :
    expectedAlerts (trackingWorld.store.lastAvailability.getD []) [cs101Open] =
        [alertFor "CS101 (1)"] ∧
      (checkCourses (stuckTabHost { results := some [cs101Open] })
        trackingWorld).world.notifications = [] ∧
      (checkCourses (okHost { results := some [cs101Open] })
        trackingWorld).world.notifications = [alertFor "CS101 (1)"] := by
  decide

/-- C8 (evaluation at the failing input): with the awaited `tabs.remove`
rejecting after a successful response, the cycle persists nothing and raises no
alert, and logs the removal error; with the removal succeeding, the same
response is persisted and alerted. -/
theorem checkCourses_release_failure :
    checkCourses (stuckTabHost { results := some [cs101Open] }) trackingWorld =
        .returned { trackingWorld with
          store := { trackingWorld.store with
            logs := some [⟨"1", "Error while checking seats: No tab with id: 7.", "error"⟩,
              ⟨"0", "Starting seat availability check...", "info"⟩] },
          openTabs := [7],
          tabsCreated := 1,
          dateReads := 2 } ∧
      checkCourses (okHost { results := some [cs101Open] }) trackingWorld =
        .returned { trackingWorld with
          store := { trackingWorld.store with
            logs := some [⟨"2", "Seats available for CS101 (1).", "success"⟩,
              ⟨"0", "Starting seat availability check...", "info"⟩],
            lastAvailability := some [("CS101|1", true)],
            lastCheck := some "1" },
          notifications := [alertFor "CS101 (1)"],
          tabsCreated := 1,
          dateReads := 3 } := by
  decide

/-- C9 (evaluation at the failing input): on a store holding only the legacy
`intervalMinutes`, `getState` returns the default `intervalSeconds = 30`, not
`60 * m`, and writes nothing to the store. -/
theorem getState_legacy_interval (m : Nat) :
    (getState { store := legacyStore m }).1.intervalSeconds = 30 ∧
      (getState { store := legacyStore m }).2.store = legacyStore m ∧
      (legacyStore m).intervalSeconds = none ∧
      (legacyStore m).intervalMinutes = some m := by
  simp [getState_eq, mergeState, storageGet, DEFAULT_STATE, legacyStore]

/-! ### Item registry -/

theorem addCourse_tracked (h : Host) (w : World) (course : CourseInput)
    (hany : (w.store.courses.getD []).any (fun item => item.key == courseKey course) = true) :
    addCourse h w course =
      addLog h w ("Course " ++ courseCode course ++ " already in list.") "warning" := by
  have hs : (mergeState DEFAULT_STATE (storageGet DEFAULT_STATE w.store)).courses =
      w.store.courses.getD [] := by simp [mergeState, storageGet, DEFAULT_STATE]
  simp only [addCourse, getState_eq, hs, hany, if_true]

theorem addCourse_new (h : Host) (w : World) (course : CourseInput)
    (hany : (w.store.courses.getD []).any (fun item => item.key == courseKey course) = false) :
    addCourse h w course =
      addLog h
        { w with store := { w.store with courses := some (w.store.courses.getD [] ++
          [{ key := courseKey course, code := courseCode course,
             «section» := courseSection course }]) } }
        ("Added course " ++ courseCode course ++
          (if truthyStr (courseSection course) then " (" ++ courseSection course ++ ")" else "") ++
          ".") "success" := by
  have hs : (mergeState DEFAULT_STATE (storageGet DEFAULT_STATE w.store)).courses =
      w.store.courses.getD [] := by simp [mergeState, storageGet, DEFAULT_STATE]
  simp only [addCourse, getState_eq, hs, hany, Bool.false_eq_true, if_false]

theorem addLog_courses (h : Host) (w : World) (message type : String) :
    (addLog h w message type).store.courses = w.store.courses := by
  rw [addLog_eq]

theorem filter_key_of_not_mem (k : String) (cs : List Course)
    (hk : cs.any (fun item => item.key == k) = false) :
    cs.filter (fun c => c.key == k) = [] := by
  rw [List.filter_eq_nil_iff]
  intro c hc hck
  have : cs.any (fun item => item.key == k) = true := List.any_eq_true.mpr ⟨c, hc, hck⟩
  rw [hk] at this
  exact absurd this (by simp)

theorem filter_key_of_nodup (k : String) (cs : List Course)
    (hnodup : (cs.map (fun c => c.key)).Nodup)
    (hk : cs.any (fun item => item.key == k) = true) :
    (cs.filter (fun c => c.key == k)).length = 1 := by
  induction cs with
  | nil => simp at hk
  | cons c rest ih =>
    rw [List.map_cons, List.nodup_cons] at hnodup
    by_cases hc : c.key = k
    · have hrest : rest.any (fun item => item.key == k) = false := by
        rw [Bool.eq_false_iff]
        intro hany
        obtain ⟨d, hd, hdk⟩ := List.any_eq_true.mp hany
        apply hnodup.1
        rw [hc, ← eq_of_beq hdk]
        exact List.mem_map_of_mem (fun c => c.key) hd
      simp [List.filter_cons, hc, filter_key_of_not_mem k rest hrest]
    · have hrest : rest.any (fun item => item.key == k) = true := by
        simpa [List.any_cons, hc] using hk
      simp [List.filter_cons, hc, ih hnodup.2 hrest]

/-- C3: on a tracked set with pairwise distinct keys, adding the same input
twice leaves exactly one entry with the derived key; the second call changes
nothing in the store but the log, where it adds a warning, so the tracked set
is the one the first call left; and the entries tracked before keep their
order at the front of the set. -/
theorem addCourse_twice (h : Host) (w : World) (course : CourseInput)
    (hnodup : ((w.store.courses.getD []).map (fun c => c.key)).Nodup) :
    (((addCourse h (addCourse h w course) course).store.courses.getD []).filter
        (fun c => c.key == courseKey course)).length = 1 ∧
      (addCourse h (addCourse h w course) course).store.courses =
        (addCourse h w course).store.courses ∧
      (addCourse h (addCourse h w course) course).store =
        { (addCourse h w course).store with
          logs := some ((LogEntry.mk (h.clock (addCourse h w course).dateReads)
              ("Course " ++ courseCode course ++ " already in list.") "warning" ::
            (addCourse h w course).store.logs.getD []).take 50) } ∧
      w.store.courses.getD [] <+:
        (addCourse h (addCourse h w course) course).store.courses.getD [] := by
  have hfirst : ((addCourse h w course).store.courses.getD []).any
        (fun item => item.key == courseKey course) = true ∧
      (((addCourse h w course).store.courses.getD []).filter
        (fun c => c.key == courseKey course)).length = 1 ∧
      w.store.courses.getD [] <+: (addCourse h w course).store.courses.getD [] := by
    cases hany : (w.store.courses.getD []).any (fun item => item.key == courseKey course) with
    | true =>
      rw [addCourse_tracked h w course hany, addLog_courses]
      exact ⟨hany, filter_key_of_nodup _ _ hnodup hany, List.prefix_refl _⟩
    | false =>
      rw [addCourse_new h w course hany, addLog_courses]
      simp [filter_key_of_not_mem _ _ hany]
  have hsecond := addCourse_tracked h (addCourse h w course) course hfirst.1
  refine ⟨?_, ?_, ?_, ?_⟩
  · rw [hsecond, addLog_courses]; exact hfirst.2.1
  · rw [hsecond, addLog_courses]
  · rw [hsecond, addLog_eq]
  · rw [hsecond, addLog_courses]; exact hfirst.2.2

/-- Witness for C3: adding `cs101`, section `1`, twice to a set holding another item. -/
theorem addCourse_twice_witness :
    (addCourse (okHost {}) (addCourse (okHost {})
        { store := { courses := some [{ key := "MAT120|", code := "MAT120", «section» := "" }] } }
        { code := " cs101", «section» := some "1 " })
        { code := " cs101", «section» := some "1 " }).store.courses =
      some [{ key := "MAT120|", code := "MAT120", «section» := "" },
        { key := "CS101|1", code := "CS101", «section» := "1" }] := by
  have key := (addCourse_twice (okHost {})
    { store := { courses := some [{ key := "MAT120|", code := "MAT120", «section» := "" }] } }
    { code := " cs101", «section» := some "1 " } (by decide)).2.1
  rw [key]
  decide

theorem courseSection_eq (course : CourseInput) :
    courseSection course = trim (course.«section».getD "") := by
  unfold courseSection
  cases hs : course.«section» with
  | none => rfl
  | some s =>
    by_cases he : s = ""
    · subst he; rfl
    · simp [truthyStr, he]

/-- C10, amended: an accepted input appends one item whose code is the input
code trimmed and upper-cased, whose section is the input section trimmed (its
letter case kept; empty when absent) and whose key is `code|section`; inputs
whose codes agree after trimming and upper-casing and whose sections agree
after trimming derive the same key. -/
theorem addCourse_appends (h : Host) (w : World) (course : CourseInput)
    (hnew : (w.store.courses.getD []).any (fun item => item.key == courseKey course) = false) :
    (addCourse h w course).store.courses = some (w.store.courses.getD [] ++
        [{ key := toUpperCase (trim course.code) ++ "|" ++ trim (course.«section».getD ""),
           code := toUpperCase (trim course.code),
           «section» := trim (course.«section».getD "") }]) ∧
      ∀ other : CourseInput,
        toUpperCase (trim other.code) = toUpperCase (trim course.code) →
        trim (other.«section».getD "") = trim (course.«section».getD "") →
        courseKey other = courseKey course := by
  constructor
  · rw [addCourse_new h w course hnew, addLog_courses]
    simp only [courseKey, courseSection_eq, courseCode]
  · intro other hcode hsec
    simp only [courseKey, courseSection_eq, courseCode, hcode, hsec]

/-- Witness for C10 as amended: a lower-case, padded input on an empty store. -/
theorem addCourse_appends_witness :
    (addCourse (okHost {}) {} { code := " cs101 ", «section» := some " a " }).store.courses =
      some [{ key := "CS101|a", code := "CS101", «section» := "a" }] := by
  have key := (addCourse_appends (okHost {}) {} { code := " cs101 ", «section» := some " a " }
    (by decide)).1
  rw [key]
  decide

/-- Counterexample to C10 as stated: the stored section keeps its letter case,
so it is not the trimmed and upper-cased section, and two inputs that differ
only in the letter case of the section derive different keys. -/
theorem addCourse_section_case :
    (addCourse (okHost {}) {} { code := " cs101 ", «section» := some " a " }).store.courses =
        some [{ key := "CS101|a", code := "CS101", «section» := "a" }] ∧
      (addCourse (okHost {}) {} { code := " cs101 ", «section» := some " a " }).store.courses ≠
        some [{ key := "CS101|" ++ toUpperCase (trim " a "), code := "CS101",
                «section» := toUpperCase (trim " a ") }] ∧
      courseKey { code := "CS101", «section» := some "a" } ≠
        courseKey { code := "CS101", «section» := some "A" } := by
  decide

/-! ### Extraction heuristic -/

theorem filter_dropWhile_not {α : Type} (p : α → Bool) (l : List α) :
    (l.dropWhile p).filter (fun c => !p c) = l.filter (fun c => !p c) := by
  induction l with
  | nil => rfl
  | cons a rest ih =>
    cases ha : p a with
    | true => simp [List.dropWhile_cons, ha, ih]
    | false => simp [List.dropWhile_cons, ha]

theorem strip_trim (s : String) :
    (trim s).data.filter (fun c => !isWhiteSpace c) =
      s.data.filter (fun c => !isWhiteSpace c) := by
  simp only [trim, List.filter_reverse, filter_dropWhile_not, List.reverse_reverse]

theorem normalize_trim (s : String) : Content.normalize (trim s) = Content.normalize s := by
  simp only [Content.normalize, strip_trim]

theorem strip_joinSpace (cells : List String) :
    (Content.joinSpace cells).data.filter (fun c => !isWhiteSpace c) =
      (concatText cells).data.filter (fun c => !isWhiteSpace c) := by
  induction cells with
  | nil => rfl
  | cons cell rest ih =>
    cases rest with
    | nil => simp [Content.joinSpace, concatText]
    | cons next others =>
      have hsp : isWhiteSpace ' ' = true := by decide
      simp only [concatText, List.map_cons, List.flatten_cons, List.filter_append] at ih ⊢
      simp only [Content.joinSpace, String.data_append, List.filter_append, ih]
      simp [hsp]

theorem strip_concat_trim (row : List String) :
    (concatText (row.map trim)).data.filter (fun c => !isWhiteSpace c) =
      (concatText row).data.filter (fun c => !isWhiteSpace c) := by
  induction row with
  | nil => rfl
  | cons cell rest ih =>
    simp only [concatText, List.map_cons, List.flatten_cons, List.filter_append] at ih ⊢
    rw [ih, strip_trim]

theorem normalize_joinSpace (row : List String) :
    Content.normalize (Content.joinSpace (row.map trim)) = Content.normalize (concatText row) := by
  simp only [Content.normalize, strip_joinSpace, strip_concat_trim]

theorem rowMatches_eq (a b : String) (cells : List String) :
    Content.rowMatches a b cells =
      (!cells.isEmpty && includes (Content.normalize (Content.joinSpace cells)) a &&
        (!truthyStr b || cells.any (fun cell => Content.normalize cell == b))) := by
  unfold Content.rowMatches
  cases cells with
  | nil => rfl
  | cons cell rest =>
    cases hcode : includes (Content.normalize (Content.joinSpace (cell :: rest))) a <;>
      cases hb : truthyStr b <;> simp [hcode, hb]

theorem rowMatches_iff (course : Course) (row : List String) :
    Content.rowMatches (Content.normalize course.code) (Content.normalize course.«section»)
        (row.map trim) = true ↔ specRowMatches course row := by
  rw [rowMatches_eq, normalize_joinSpace]
  unfold specRowMatches
  have hany : ((row.map trim).any
        (fun cell => Content.normalize cell == Content.normalize course.«section») = true) ↔
      ∃ cell ∈ row, Content.normalize cell = Content.normalize course.«section» := by
    rw [List.any_eq_true]
    constructor
    · rintro ⟨c, hc, hcn⟩
      obtain ⟨d, hd, rfl⟩ := List.mem_map.mp hc
      exact ⟨d, hd, by rw [← normalize_trim]; exact eq_of_beq hcn⟩
    · rintro ⟨d, hd, hdn⟩
      exact ⟨trim d, List.mem_map_of_mem trim hd, by rw [normalize_trim, hdn]; simp⟩
  have hlen : (!(row.map trim).isEmpty) = true ↔ 0 < row.length := by
    cases row <;> simp
  simp only [Bool.and_eq_true, Bool.or_eq_true, hany, hlen, truthyStr, Bool.not_eq_true',
    bne_eq_false_iff_eq, ne_eq]
  constructor
  · rintro ⟨⟨h1, h2⟩, h3⟩
    refine ⟨h1, h2, fun hne => ?_⟩
    rcases h3 with h3 | h3
    · exact absurd h3 hne
    · exact h3
  · rintro ⟨h1, h2, h3⟩
    refine ⟨⟨h1, h2⟩, ?_⟩
    by_cases he : Content.normalize course.«section» = ""
    · exact Or.inl he
    · exact Or.inr (h3 he)

theorem findMatch_eq_none_iff (rows : List (Content.Table × List String)) (a b : String) :
    Content.findMatch rows a b = none ↔
      ∀ p ∈ rows, Content.rowMatches a b (p.2.map trim) = false := by
  induction rows with
  | nil => simp [Content.findMatch]
  | cons p rest ih =>
    obtain ⟨table, row⟩ := p
    cases hm : Content.rowMatches a b (row.map trim) with
    | true => simp [Content.findMatch, hm]
    | false => simp [Content.findMatch, hm, ih]

theorem findMatch_first (pre post : List (Content.Table × List String)) (table : Content.Table)
    (row : List String) (a b : String)
    (hpre : ∀ p ∈ pre, Content.rowMatches a b (p.2.map trim) = false)
    (hrow : Content.rowMatches a b (row.map trim) = true) :
    Content.findMatch (pre ++ (table, row) :: post) a b =
      some (row.map trim, Content.findSeatIndex table) := by
  induction pre with
  | nil => simp [Content.findMatch, hrow]
  | cons p rest ih =>
    obtain ⟨t, r⟩ := p
    have hp : Content.rowMatches a b (r.map trim) = false := hpre (t, r) (List.mem_cons_self _ _)
    simp only [List.cons_append, Content.findMatch, hp, Bool.false_eq_true, if_false]
    exact ih (fun q hq => hpre q (List.mem_cons_of_mem _ hq))

theorem mem_collectRows (doc : Content.Document) (p : Content.Table × List String) :
    p ∈ Content.collectRows doc ↔ p.1 ∈ doc ∧ p.2 ∈ p.1.rows := by
  obtain ⟨table, row⟩ := p
  simp only [Content.collectRows, List.mem_flatten, List.mem_map]
  constructor
  · rintro ⟨l, ⟨t, ht, rfl⟩, hl⟩
    obtain ⟨r, hr, heq⟩ := List.mem_map.mp hl
    cases heq
    exact ⟨ht, hr⟩
  · rintro ⟨ht, hr⟩
    exact ⟨_, ⟨table, ht, rfl⟩, List.mem_map.mpr ⟨row, hr, rfl⟩⟩

theorem checkCourse_of_none (doc : Content.Document) (course : Course)
    (hm : Content.findMatch (Content.collectRows doc) (Content.normalize course.code)
      (Content.normalize course.«section») = none) :
    (Content.checkCourse doc course).available = false ∧
      (Content.checkCourse doc course).seats = none ∧
      (Content.checkCourse doc course).note = "Course not found on page." := by
  simp only [Content.checkCourse, hm, and_self]

theorem checkCourse_of_some (doc : Content.Document) (course : Course) (cells : List String)
    (seatIndex : Option Nat)
    (hm : Content.findMatch (Content.collectRows doc) (Content.normalize course.code)
      (Content.normalize course.«section») = some (cells, seatIndex)) :
    (Content.checkCourse doc course).seats = Content.parseSeatCount cells seatIndex ∧
      (Content.checkCourse doc course).available =
        (match Content.parseSeatCount cells seatIndex with
          | some n => decide (n > 0)
          | none => false) ∧
      (Content.checkCourse doc course).note =
        (if (Content.parseSeatCount cells seatIndex).isNone then "Unable to parse seat count."
          else "Parsed from page.") := by
  simp only [Content.checkCourse, hm, and_self]

theorem not_found_iff (doc : Content.Document) (course : Course) :
    ((Content.checkCourse doc course).available = false ∧
        (Content.checkCourse doc course).seats = none ∧
        (Content.checkCourse doc course).note = "Course not found on page.") ↔
      ¬ ∃ table ∈ doc, ∃ row ∈ table.rows, specRowMatches course row := by
  constructor
  · rintro ⟨_, _, hnote⟩ ⟨table, ht, row, hr, hspec⟩
    cases hm : Content.findMatch (Content.collectRows doc) (Content.normalize course.code)
        (Content.normalize course.«section») with
    | none =>
      have hall := (findMatch_eq_none_iff _ _ _).mp hm (table, row)
        ((mem_collectRows doc (table, row)).mpr ⟨ht, hr⟩)
      rw [(rowMatches_iff course row).mpr hspec] at hall
      exact absurd hall (by simp)
    | some found =>
      obtain ⟨cells, seatIndex⟩ := found
      rw [(checkCourse_of_some doc course cells seatIndex hm).2.2] at hnote
      split at hnote <;> exact absurd hnote (by decide)
  · intro hno
    apply checkCourse_of_none
    rw [findMatch_eq_none_iff]
    intro p hp
    rw [Bool.eq_false_iff]
    intro hmatch
    exact hno ⟨p.1, ((mem_collectRows doc p).mp hp).1, p.2, ((mem_collectRows doc p).mp hp).2,
      (rowMatches_iff course p.2).mp hmatch⟩

/-- C7: the result of an item is the `Course not found on page.` result exactly
when no row of any table has a cell, contains the normalized code in its
normalized concatenated text and, for a non-empty normalized section, has a
cell whose normalized text equals the section; containment is not enough for
the section: a row with a cell `20` and no cell `2` does not match section `2`. -/
theorem checkCourse_not_found :
    (∀ (doc : Content.Document) (course : Course),
      ((Content.checkCourse doc course).available = false ∧
          (Content.checkCourse doc course).seats = none ∧
          (Content.checkCourse doc course).note = "Course not found on page.") ↔
        ¬ ∃ table ∈ doc, ∃ row ∈ table.rows, specRowMatches course row) ∧
      Content.checkCourse [{ headerCells := [], rows := [["CS101", "20", "5"]] }]
          { key := "CS101|2", code := "CS101", «section» := "2" } =
        { key := "CS101|2", label := "CS101 (2)", available := false, seats := none,
          note := "Course not found on page." } ∧
      Content.checkCourse [{ headerCells := [], rows := [["CS101", "2", "5"]] }]
          { key := "CS101|2", code := "CS101", «section» := "2" } =
        { key := "CS101|2", label := "CS101 (2)", available := true, seats := some 5,
          note := "Parsed from page." } :=
  ⟨not_found_iff, by decide, by decide⟩

theorem whiteSpace_not_digit (c : Char) (hc : isWhiteSpace c = true) :
    Content.isDigit c = false := by
  simp only [isWhiteSpace, Bool.or_eq_true, beq_iff_eq, Bool.and_eq_true, decide_eq_true_eq] at hc
  simp only [Content.isDigit, Bool.and_eq_false_iff, decide_eq_false_iff_not]
  omega

theorem filter_dropWhile_disjoint {α : Type} (p q : α → Bool)
    (hpq : ∀ a, p a = true → q a = false) (l : List α) :
    (l.dropWhile p).filter q = l.filter q := by
  induction l with
  | nil => rfl
  | cons a rest ih =>
    cases ha : p a with
    | true => simp [List.dropWhile_cons, ha, ih, hpq a ha]
    | false => simp [List.dropWhile_cons, ha]

theorem digitsOf_trim (s : String) : Content.digitsOf (trim s) = Content.digitsOf s := by
  simp only [Content.digitsOf, trim, List.filter_reverse,
    filter_dropWhile_disjoint isWhiteSpace Content.isDigit whiteSpace_not_digit,
    List.reverse_reverse]

theorem findSeatIndex_first (table : Content.Table) (i : Nat)
    (hi : i < table.headerCells.length)
    (hlabel : isSeatLabel (table.headerCells.getD i "") = true)
    (hfirst : ∀ j < i, isSeatLabel (table.headerCells.getD j "") = false) :
    Content.findSeatIndex table = some i := by
  have hlen : (table.headerCells.length == 0) = false := by
    rw [beq_eq_false_iff_ne]; omega
  simp only [Content.findSeatIndex, hlen, Bool.false_eq_true, if_false, List.findIdx?_map]
  rw [List.findIdx?_eq_some_iff_getElem]
  refine ⟨hi, ?_, ?_⟩
  · have := hlabel
    simp only [List.getD_eq_getElem?_getD, List.getElem?_eq_getElem hi, Option.getD_some] at this
    exact this
  · intro j hj
    have := hfirst j hj
    simp only [List.getD_eq_getElem?_getD, List.getElem?_eq_getElem (Nat.lt_trans hj hi),
      Option.getD_some] at this
    simp only [Function.comp, Bool.not_eq_true]
    exact this

theorem toNumber_of_le (n : Nat) (h : n ≤ 2 ^ 53) : Content.toNumber n = n := by
  rcases Nat.lt_or_eq_of_le h with hlt | heq
  · unfold Content.toNumber
    rw [if_pos hlt]
  · subst heq
    decide

/-- C6, amended: when the first matching row lies in a table whose first
header label including `seat` or `available` has index `i`, the row has more
than `i` cells and cell `i` contains a digit, the result has `seats` equal to
the Number value (the nearest double) of the base-10 integer formed by the
digits of cell `i`, `available = (seats > 0)` and the note `Parsed from page.`;
when that integer is at most `2 ^ 53`, `seats` is the integer itself. -/
theorem checkCourse_header_seats (doc : Content.Document) (course : Course)
    (pre post : List (Content.Table × List String)) (table : Content.Table)
    (row : List String) (i : Nat)
    (hrows : Content.collectRows doc = pre ++ (table, row) :: post)
    (hpre : ∀ p ∈ pre, ¬ specRowMatches course p.2)
    (hrow : specRowMatches course row)
    (hi : i < table.headerCells.length)
    (hlabel : isSeatLabel (table.headerCells.getD i "") = true)
    (hfirst : ∀ j < i, isSeatLabel (table.headerCells.getD j "") = false)
    (hcells : i < row.length)
    (hdigit : ∃ c ∈ (row.getD i "").data, Content.isDigit c = true) :
    (Content.checkCourse doc course).seats = some (Content.toNumber
        (Content.decimalValue ((row.getD i "").data.filter Content.isDigit))) ∧
      (Content.checkCourse doc course).available = decide (0 < Content.toNumber
        (Content.decimalValue ((row.getD i "").data.filter Content.isDigit))) ∧
      (Content.checkCourse doc course).note = "Parsed from page." ∧
      (Content.decimalValue ((row.getD i "").data.filter Content.isDigit) ≤ 2 ^ 53 →
        (Content.checkCourse doc course).seats =
            some (Content.decimalValue ((row.getD i "").data.filter Content.isDigit)) ∧
          (Content.checkCourse doc course).available =
            decide (0 < Content.decimalValue ((row.getD i "").data.filter Content.isDigit))) := by
  have hm : Content.findMatch (Content.collectRows doc) (Content.normalize course.code)
      (Content.normalize course.«section») = some (row.map trim, some i) := by
    rw [hrows, findMatch_first pre post table row _ _ _ ((rowMatches_iff course row).mpr hrow),
      findSeatIndex_first table i hi hlabel hfirst]
    intro p hp
    rw [Bool.eq_false_iff]
    exact fun hmatch => hpre p hp ((rowMatches_iff course p.2).mp hmatch)
  have hne : ((row.getD i "").data.filter Content.isDigit).isEmpty = false := by
    obtain ⟨c, hc, hd⟩ := hdigit
    cases hf : (row.getD i "").data.filter Content.isDigit with
    | nil =>
      have : c ∈ (row.getD i "").data.filter Content.isDigit := List.mem_filter.mpr ⟨hc, hd⟩
      rw [hf] at this
      exact absurd this (List.not_mem_nil c)
    | cons _ _ => rfl
  have hparse : Content.parseSeatCount (row.map trim) (some i) = some (Content.toNumber
      (Content.decimalValue ((row.getD i "").data.filter Content.isDigit))) := by
    have hget : (row.map trim).getD i "" = trim (row.getD i "") := by
      simp [List.getD_eq_getElem?_getD, List.getElem?_eq_getElem hcells]
    simp only [Content.parseSeatCount, List.length_map, hcells, if_true, hget, digitsOf_trim,
      Content.parseInt]
    simp only [Content.digitsOf, hne, Bool.false_eq_true, if_false]
  obtain ⟨hs, ha, hn⟩ := checkCourse_of_some doc course _ _ hm
  rw [hparse] at hs ha hn
  refine ⟨hs, by rw [ha], by rw [hn]; rfl, fun hbound => ?_⟩
  rw [hs, ha, toNumber_of_le _ hbound]
  exact ⟨rfl, rfl⟩

/-- Witness for C6 as amended: the two scenarios of the specification, rows
`CS101, 1, 0` and `CS101, 1, 5` under the header `Code, Section, Seats`. -/
theorem checkCourse_header_seats_witness :
    ((Content.checkCourse [seatTable ["CS101", "1", "0"]] cs101).seats = some 0 ∧
        (Content.checkCourse [seatTable ["CS101", "1", "0"]] cs101).available = false ∧
        (Content.checkCourse [seatTable ["CS101", "1", "0"]] cs101).note = "Parsed from page.") ∧
      ((Content.checkCourse [seatTable ["CS101", "1", "5"]] cs101).seats = some 5 ∧
        (Content.checkCourse [seatTable ["CS101", "1", "5"]] cs101).available = true ∧
        (Content.checkCourse [seatTable ["CS101", "1", "5"]] cs101).note = "Parsed from page.") := by
  have hheader : ∀ (row : List String),
      ∀ p ∈ [(seatTable row, ["Code", "Section", "Seats"])], ¬ specRowMatches cs101 p.2 := by
    intro row p hp hs
    rw [List.mem_singleton] at hp
    subst hp
    exact absurd ((rowMatches_iff cs101 ["Code", "Section", "Seats"]).mpr hs) (by decide)
  have full := checkCourse_header_seats [seatTable ["CS101", "1", "0"]] cs101
    [(seatTable ["CS101", "1", "0"], ["Code", "Section", "Seats"])] []
    (seatTable ["CS101", "1", "0"]) ["CS101", "1", "0"] 2 (by decide) (hheader _)
    ((rowMatches_iff cs101 _).mp (by decide)) (by decide) (by decide) (by decide) (by decide)
    ⟨'0', by decide, by decide⟩
  have five := checkCourse_header_seats [seatTable ["CS101", "1", "5"]] cs101
    [(seatTable ["CS101", "1", "5"], ["Code", "Section", "Seats"])] []
    (seatTable ["CS101", "1", "5"]) ["CS101", "1", "5"] 2 (by decide) (hheader _)
    ((rowMatches_iff cs101 _).mp (by decide)) (by decide) (by decide) (by decide) (by decide)
    ⟨'5', by decide, by decide⟩
  have full' := full.2.2.2 (by decide)
  have five' := five.2.2.2 (by decide)
  exact ⟨⟨full'.1.trans (by decide), full'.2.trans (by decide), full.2.2.1⟩,
    ⟨five'.1.trans (by decide), five'.2.trans (by decide), five.2.2.1⟩⟩

/-- Counterexample to C6 as stated: the seat cell `9007199254740993` under the
header `Code, Section, Seats` forms the integer `2 ^ 53 + 1`, and the result
has `seats = 9007199254740992`. -/
theorem checkCourse_header_seats_rounded :
    Content.decimalValue ("9007199254740993".data.filter Content.isDigit) = 9007199254740993 ∧
      (Content.checkCourse [longSeatTable] cs101).seats = some 9007199254740992 ∧
      (Content.checkCourse [longSeatTable] cs101).seats ≠
        some (Content.decimalValue ("9007199254740993".data.filter Content.isDigit)) ∧
      (Content.checkCourse [longSeatTable] cs101).note = "Parsed from page." := by
  decide

/-! ### Fallback of `parseSeatCount` -/

theorem findSeatIndex_none (table : Content.Table)
    (hnone : ∀ cell ∈ table.headerCells, isSeatLabel cell = false) :
    Content.findSeatIndex table = none := by
  unfold Content.findSeatIndex
  split
  · rfl
  · simp only [List.findIdx?_map, List.findIdx?_eq_none_iff]
    intro cell hcell
    exact hnone cell hcell

theorem parseSeatCount_fallback (cells : List String) (seatIndex : Option Nat)
    (hout : ∀ i, seatIndex = some i → cells.length ≤ i) :
    Content.parseSeatCount cells seatIndex =
      ((cells.map (fun cell => Content.parseInt (Content.digitsOf cell))).filterMap id).getLast? := by
  unfold Content.parseSeatCount
  cases seatIndex with
  | none => rfl
  | some i =>
    have hi : ¬ i < cells.length := Nat.not_lt.mpr (hout i rfl)
    simp only [hi, if_false]

theorem numbers_eq (row : List String) :
    ((row.map trim).map (fun cell => Content.parseInt (Content.digitsOf cell))).filterMap id =
      (((row.map (fun cell => cell.data.filter Content.isDigit)).filter
        (fun digits => !digits.isEmpty)).map Content.decimalValue).map Content.toNumber := by
  induction row with
  | nil => rfl
  | cons cell rest ih =>
    have hhead : Content.parseInt (Content.digitsOf (trim cell)) =
        if (cell.data.filter Content.isDigit).isEmpty then none
        else some (Content.toNumber (Content.decimalValue (cell.data.filter Content.isDigit))) := by
      rw [digitsOf_trim]; rfl
    rw [List.map_cons, List.map_cons, List.filterMap_cons, ih, List.map_cons, List.filter_cons]
    simp only [id, hhead]
    cases hd : (cell.data.filter Content.isDigit).isEmpty with
    | true => simp only [if_true, Bool.not_true, Bool.false_eq_true, if_false]
    | false => simp only [Bool.false_eq_true, if_false, Bool.not_false, if_true, List.map_cons]

theorem fallback_eq_spec (row : List String) :
    (((row.map trim).map (fun cell => Content.parseInt (Content.digitsOf cell))).filterMap
      id).getLast? = (specLastNumber row).map Content.toNumber := by
  rw [numbers_eq, List.getLast?_map, List.getLast?_map, specLastNumber]

/-- C11, amended: when no header-based seat column applies to the first
matching row, `parseSeatCount` returns the Number value (the nearest double) of
the base-10 integer of the last cell of the row, in row order, that still has
a digit after every cell (code and section cells included) is reduced to its
digit characters, or `null` when no cell has a digit; the result has these
seats, `available = (seats > 0)`, and for `null` seats `available = false` with
the note `Unable to parse seat count.`; when that integer is at most `2 ^ 53`,
`seats` is the integer itself. -/
theorem checkCourse_fallback_seats (doc : Content.Document) (course : Course)
    (pre post : List (Content.Table × List String)) (table : Content.Table)
    (row : List String)
    (hrows : Content.collectRows doc = pre ++ (table, row) :: post)
    (hpre : ∀ p ∈ pre, ¬ specRowMatches course p.2)
    (hrow : specRowMatches course row)
    (hno : noHeaderColumn table row) :
    Content.parseSeatCount (row.map trim) (Content.findSeatIndex table) =
        (specLastNumber row).map Content.toNumber ∧
      (Content.checkCourse doc course).seats = (specLastNumber row).map Content.toNumber ∧
      (Content.checkCourse doc course).available =
        (match (specLastNumber row).map Content.toNumber with
          | some n => decide (n > 0)
          | none => false) ∧
      (Content.checkCourse doc course).note =
        (if (specLastNumber row).isNone then "Unable to parse seat count."
          else "Parsed from page.") ∧
      ((∀ v, specLastNumber row = some v → v ≤ 2 ^ 53) →
        (Content.checkCourse doc course).seats = specLastNumber row ∧
          (Content.checkCourse doc course).available =
            (match specLastNumber row with
              | some n => decide (n > 0)
              | none => false)) := by
  have hout : ∀ i, Content.findSeatIndex table = some i → (row.map trim).length ≤ i := by
    intro i hi
    rcases hno with hempty | hnone | ⟨k, hk, hlabel, hfirst, hlen⟩
    · rw [findSeatIndex_none table (by rw [hempty]; intro cell hcell; cases hcell)] at hi
      cases hi
    · rw [findSeatIndex_none table hnone] at hi
      cases hi
    · rw [findSeatIndex_first table k hk hlabel hfirst] at hi
      cases hi
      rw [List.length_map]
      exact hlen
  have hparse : Content.parseSeatCount (row.map trim) (Content.findSeatIndex table) =
      (specLastNumber row).map Content.toNumber := by
    rw [parseSeatCount_fallback _ _ hout, fallback_eq_spec]
  have hm : Content.findMatch (Content.collectRows doc) (Content.normalize course.code)
      (Content.normalize course.«section») =
        some (row.map trim, Content.findSeatIndex table) := by
    rw [hrows, findMatch_first pre post table row _ _ _ ((rowMatches_iff course row).mpr hrow)]
    intro p hp
    rw [Bool.eq_false_iff]
    exact fun hmatch => hpre p hp ((rowMatches_iff course p.2).mp hmatch)
  obtain ⟨hs, ha, hn⟩ := checkCourse_of_some doc course _ _ hm
  rw [hparse] at hs ha hn
  have hnote : (Content.checkCourse doc course).note =
      (if (specLastNumber row).isNone then "Unable to parse seat count."
        else "Parsed from page.") := by
    rw [hn]
    cases specLastNumber row <;> rfl
  refine ⟨hparse, hs, ha, hnote, fun hbound => ?_⟩
  rw [hs, ha]
  cases hv : specLastNumber row with
  | none => exact ⟨rfl, rfl⟩
  | some v =>
    simp only [Option.map_some', toNumber_of_le v (hbound v hv)]
    exact ⟨trivial, trivial⟩

/-- Witness for C11 as amended: the row `CS101, 1, Full` of a table without
header cells yields `seats = 1` (the section cell) and `available = true`; so
does the row `CS101, 1, NAC` of a table whose seat column lies outside the row. -/
theorem checkCourse_fallback_seats_witness :
    ((Content.checkCourse [headlessTable] cs101).seats = some 1 ∧
        (Content.checkCourse [headlessTable] cs101).available = true ∧
        (Content.checkCourse [headlessTable] cs101).note = "Parsed from page.") ∧
      ((Content.checkCourse [shortRowTable] cs101).seats = some 1 ∧
        (Content.checkCourse [shortRowTable] cs101).available = true) := by
  have headless := checkCourse_fallback_seats [headlessTable] cs101 [] [] headlessTable
    ["CS101", "1", "Full"] (by decide) (fun p hp => absurd hp (List.not_mem_nil p))
    ((rowMatches_iff cs101 _).mp (by decide)) (Or.inl rfl)
  have short := checkCourse_fallback_seats [shortRowTable] cs101 [] [] shortRowTable
    ["CS101", "1", "NAC"] (by decide) (fun p hp => absurd hp (List.not_mem_nil p))
    ((rowMatches_iff cs101 _).mp (by decide))
    (Or.inr (Or.inr ⟨3, by decide, by decide, by decide, by decide⟩))
  have headless' := headless.2.2.2.2 (by decide)
  have short' := short.2.2.2.2 (by decide)
  exact ⟨⟨headless'.1.trans (by decide), headless'.2.trans (by decide),
      headless.2.2.2.1.trans (by decide)⟩,
    ⟨short'.1.trans (by decide), short'.2.trans (by decide)⟩⟩

/-- Counterexample to C11 as stated: in a table without header cells the row
`CS101, 1, 9007199254740993` has `2 ^ 53 + 1` as the base-10 value of its last
cell with a digit, and the result has `seats = 9007199254740992`. -/
theorem checkCourse_fallback_seats_rounded :
    specLastNumber ["CS101", "1", "9007199254740993"] = some 9007199254740993 ∧
      (Content.checkCourse [longCellTable] cs101).seats = some 9007199254740992 ∧
      (Content.checkCourse [longCellTable] cs101).seats ≠
        specLastNumber ["CS101", "1", "9007199254740993"] ∧
      (Content.checkCourse [longCellTable] cs101).available = true := by
  decide

end NSUAdvising
